import Mathlib

/-!
Verification of the spot-price dashboard's data pipeline (spot_price_app.py).

The embedding models the pandas dataframe as a list of rows.  Timestamps are
minutes since the UTC epoch (a `Nat`); the `Day` column derived by
`df['DateTime'].dt.date` is the day index `dateTime / 1440`, and comparing the
day strings of the source is comparing these day indices.  Prices are
rationals.  The two callbacks of the app reduce to:

* `plot_price` — filter to one (area, day), sort by time, build a 15-minute
  grid with `pd.date_range` from the minimum timestamp to the maximum
  timestamp plus 59 minutes, and `reindex(..., method='ffill')`.
* `update_table` — filter, sort, format each timestamp as `HH:MM`, and build
  the `MTU` interval labels by pairing each time with the shifted-by-one time
  (the last row paired with `"00:00"` via `fillna`).

Python exceptions are modelled by `Option`: `pd.date_range` raises when the
subset is empty (its bounds are `NaT`), and `reindex` with a fill method
raises when the index is not unique, so `plot_price` returns `none` in those
cases.
-/

/-- One row of the loaded dataframe, restricted to the columns the pipeline
reads: `DateTime` (minutes since the UTC epoch), `MapCode`, `Price`. -/
structure Row where
  dateTime : Nat
  mapCode : String
  price : Rat
deriving DecidableEq, Repr

/-- The derived `Day` column: `df['DateTime'].dt.date`, as a day index. -/
def Row.day (r : Row) : Nat := r.dateTime / 1440

/-- The row filter `(data['MapCode'] == area) & (data['Day'] == day)`. -/
def rowMatch (area : String) (day : Nat) (r : Row) : Bool :=
  r.mapCode == area && r.day == day

instance rowLeDec : DecidableRel fun a b : Row => a.dateTime ≤ b.dateTime :=
  fun a b => Nat.decLe a.dateTime b.dateTime

/-- `subset.sort_values('DateTime')`: sort the rows by timestamp, ascending. -/
def sort_values (l : List Row) : List Row :=
  List.insertionSort (fun a b => a.dateTime ≤ b.dateTime) l

/-- `pd.date_range(start, stop, freq=step)`: the timestamps
`start, start+step, start+2*step, …` that are `≤ stop` (empty when
`stop < start`). -/
def date_range (start stop step : Nat) : List Nat :=
  if stop < start then []
  else (List.range ((stop - start) / step + 1)).map fun k => start + step * k

/-- `reindex(t_index, method='ffill')` at a single label `t`: the price of the
last row in list order whose timestamp is `≤ t`, or `none` (`NaN`) when every
timestamp is `> t`. -/
def ffill (obs : List (Nat × Rat)) (t : Nat) : Option Rat :=
  match obs with
  | [] => none
  | p :: rest =>
    match ffill rest t with
    | some q => some q
    | none => if p.1 ≤ t then some p.2 else none

/-- Lines 136–139 of the source: the filtered, time-sorted subset that both
callbacks build from the dataframe. -/
def subsetOf (data : List Row) (day : Nat) (area : String) : List Row :=
  sort_values (data.filter (rowMatch area day))

/-- The sorted `DateTime` index of the subset. -/
def tsOf (data : List Row) (day : Nat) (area : String) : List Nat :=
  (subsetOf data day area).map Row.dateTime

/-- Uniqueness of the (sorted) index: pandas `reindex` with a fill method
requires strictly increasing labels. -/
def strictlyAscending : List Nat → Bool
  | [] => true
  | [_] => true
  | a :: b :: rest => decide (a < b) && strictlyAscending (b :: rest)

/-- Lines 143–144 of the source, applied to the already-sorted subset: the
15-minute grid from `subset.index.min()` to `subset.index.max() + 59min`,
reindexed with forward fill.  `none` models the exceptions raised on an empty
subset (`date_range` with `NaT` bounds) and on a duplicated index (`reindex`
with a fill method requires a unique index). -/
def resampleSorted (subset : List Row) : Option (List (Nat × Option Rat)) :=
  let ts := subset.map Row.dateTime
  match ts.min?, ts.max? with
  | some tmin, some tmax =>
    if strictlyAscending ts then
      some ((date_range tmin (tmax + 59) 15).map
        fun t => (t, ffill (subset.map fun r => (r.dateTime, r.price)) t))
    else none
  | _, _ => none

/-- The core of `plot_price(day, area, data)`: the resampled series that the
figure plots. -/
def plot_price (data : List Row) (day : Nat) (area : String) :
    Option (List (Nat × Option Rat)) :=
  resampleSorted (subsetOf data day area)

/-- One field of `strftime`, zero-padded to two digits. -/
def twoDigits (n : Nat) : String :=
  if n < 10 then "0" ++ toString n else toString n

/-- `subset['DateTime'].dt.strftime('%H:%M')` on one timestamp. -/
def strftimeHM (t : Nat) : String :=
  twoDigits (t % 1440 / 60) ++ ":" ++ twoDigits (t % 60)

/-- The `HH:MM` times of the table's rows, in row order: the sorted matching
timestamps, formatted (the `DateTime` column after line 269 of the source). -/
def tableTimes (data : List Row) (day : Nat) (area : String) : List String :=
  (subsetOf data day area).map fun r => strftimeHM r.dateTime

/-- Lines 269–277 of the source, applied to the already-sorted subset:
`temp = DateTime.shift(-1)` followed by `fillna('00:00')` pairs each row's
time with the next row's time and the last row's time with `"00:00"`;
`MTU = DateTime + ' - ' + temp`. -/
def mtuRows (subset : List Row) : List (String × Rat) :=
  let times := subset.map fun r => strftimeHM r.dateTime
  let mtu := (times.zip (times.drop 1 ++ ["00:00"])).map
    fun p => p.1 ++ " - " ++ p.2
  mtu.zip (subset.map Row.price)

/-- The core of `update_table(day, area, data)`: the `(MTU, price)` rows of
the rendered table. -/
def update_table (data : List Row) (day : Nat) (area : String) :
    List (String × Rat) :=
  mtuRows (subsetOf data day area)

/-- The mutable state of the running app: the module-level dataframe `df` and
the callback-local `subset`. -/
structure PState where
  df : List Row
  subset : List Row
deriving Repr

/-- `subset = data[(data['MapCode'] == area) & (data['Day'] == day)].copy()`:
writes a fresh filtered copy into the local variable; `df` is only read. -/
def stepExtract (day : Nat) (area : String) (s : PState) : PState :=
  { s with subset := s.df.filter (rowMatch area day) }

/-- `subset.sort_values('DateTime', inplace=True)`: in-place sort of the
local copy. -/
def stepSort (s : PState) : PState :=
  { s with subset := sort_values s.subset }

/-- The `update_plot` callback as a state transformer: the mutation steps of
`plot_price` (each writing the dataframe it targets) followed by the
read-only grid/reindex computation, returning the final state together with
the series (or `none` for a raised exception). -/
def plotCallback (day : Nat) (area : String) (s : PState) :
    PState × Option (List (Nat × Option Rat)) :=
  let s1 := stepSort (stepExtract day area s)
  (s1, resampleSorted s1.subset)

/-- The `update_table` callback as a state transformer: extract, in-place
sort, then the read-only label construction. -/
def tableCallback (day : Nat) (area : String) (s : PState) :
    PState × List (String × Rat) :=
  let s1 := stepSort (stepExtract day area s)
  (s1, mtuRows s1.subset)

/-! ### Concrete datasets used by the examples and counterexamples -/

/-- One matching hourly observation at 01:00 of day 0. -/
def dataOneAt60 : List Row := [⟨60, "NO1", 10⟩]

/-- One matching observation at 02:00 of day 0. -/
def dataOneAt120 : List Row := [⟨120, "NO2", 7⟩]

/-- Twenty-four hourly observations covering day 0, price `k` at hour `k`. -/
def dataHourly : List Row := (List.range 24).map fun k => ⟨60 * k, "NO1", (k : Rat)⟩

/-- An already-resampled day: 96 observations spaced 15 minutes on day 0. -/
def dataQuarter : List Row := (List.range 96).map fun k => ⟨15 * k, "NO3", 50⟩

/-- The spec's example: day `2023-01-15` (epoch day 19372), area `NO3`, a
single observation at 00:00 of that day with price 50.2. -/
def dataJan15 : List Row := [⟨19372 * 1440, "NO3", (251 : Rat) / 5⟩]

/-! ### Lemmas about `date_range` -/

lemma date_range_length {start stop step : Nat} (h : start ≤ stop) :
    (date_range start stop step).length = (stop - start) / step + 1 := by
  rw [date_range, if_neg (by omega)]
  simp

lemma date_range_getElem? {start stop step i : Nat} (h : start ≤ stop)
    (hi : i ≤ (stop - start) / step) :
    (date_range start stop step)[i]? = some (start + step * i) := by
  rw [date_range, if_neg (by omega), List.getElem?_map,
    List.getElem?_range (by omega)]
  rfl

lemma mem_date_range {start stop step t : Nat}
    (ht : t ∈ date_range start stop step) :
    ∃ k ≤ (stop - start) / step, t = start + step * k := by
  rw [date_range] at ht
  split at ht
  · simp at ht
  · obtain ⟨k, hk, rfl⟩ := List.mem_map.mp ht
    rw [List.mem_range] at hk
    exact ⟨k, by omega, rfl⟩

lemma mem_date_range_le {start stop step t : Nat} (h : start ≤ stop)
    (ht : t ∈ date_range start stop step) : t ≤ stop := by
  obtain ⟨k, hk, rfl⟩ := mem_date_range ht
  have h1 : step * k ≤ step * ((stop - start) / step) :=
    Nat.mul_le_mul_left _ hk
  have h2 : step * ((stop - start) / step) ≤ stop - start := Nat.mul_div_le _ _
  omega

/-! ### Lemmas about `ffill` -/

lemma ffill_eq_none {obs : List (Nat × Rat)} {t : Nat} :
    ffill obs t = none ↔ ∀ p ∈ obs, t < p.1 := by
  induction obs with
  | nil => simp [ffill]
  | cons p rest ih =>
    cases hr : ffill rest t with
    | some q =>
      simp only [ffill, hr]
      constructor
      · intro h
        exact absurd h (by simp)
      · intro hall
        have h0 : ffill rest t = none :=
          ih.mpr fun r hrm => hall r (List.mem_cons_of_mem _ hrm)
        rw [hr] at h0
        exact absurd h0 (by simp)
    | none =>
      simp only [ffill, hr]
      constructor
      · intro hif r hrm
        rcases List.mem_cons.mp hrm with rfl | hrm
        · by_contra hle
          rw [if_pos (Nat.le_of_not_lt hle)] at hif
          exact absurd hif (by simp)
        · exact ih.mp hr r hrm
      · intro hall
        rw [if_neg (Nat.not_le.mpr (hall p (List.mem_cons_self p rest)))]

lemma ffill_isSome {obs : List (Nat × Rat)} {t : Nat}
    (h : ∃ p ∈ obs, p.1 ≤ t) : (ffill obs t).isSome := by
  cases hf : ffill obs t with
  | none =>
    obtain ⟨p, hp, hpt⟩ := h
    exact absurd hpt (Nat.not_le.mpr (ffill_eq_none.mp hf p hp))
  | some q => rfl

lemma ffill_spec {obs : List (Nat × Rat)} {t : Nat} {q : Rat}
    (hsort : obs.Pairwise fun a b => a.1 < b.1)
    (hq : ffill obs t = some q) :
    ∃ p ∈ obs, p.2 = q ∧ p.1 ≤ t ∧ ∀ r ∈ obs, r.1 ≤ t → r.1 ≤ p.1 := by
  induction obs with
  | nil => simp [ffill] at hq
  | cons p rest ih =>
    rw [ffill] at hq
    have hhead := (List.pairwise_cons.mp hsort).1
    have htail := (List.pairwise_cons.mp hsort).2
    cases hr : ffill rest t with
    | some q' =>
      rw [hr] at hq
      obtain ⟨w, hwm, hwq, hwt, hwmax⟩ := ih htail (hr.trans hq)
      refine ⟨w, List.mem_cons_of_mem _ hwm, hwq, hwt, ?_⟩
      intro r hrm hrt
      rcases List.mem_cons.mp hrm with rfl | hrm
      · exact Nat.le_of_lt (hhead w hwm)
      · exact hwmax r hrm hrt
    | none =>
      rw [hr] at hq
      by_cases hpt : p.1 ≤ t
      · rw [if_pos hpt] at hq
        refine ⟨p, List.mem_cons_self p rest, (Option.some_inj.mp hq).symm ▸ rfl, hpt, ?_⟩
        intro r hrm hrt
        rcases List.mem_cons.mp hrm with rfl | hrm
        · exact Nat.le_refl _
        · exact absurd hrt (Nat.not_le.mpr (ffill_eq_none.mp hr r hrm))
      · rw [if_neg hpt] at hq
        exact absurd hq (by simp)

lemma ffill_append {l : List (Nat × Rat)} {x : Nat × Rat} {t : Nat} :
    ffill (l ++ [x]) t = if x.1 ≤ t then some x.2 else ffill l t := by
  induction l with
  | nil =>
    simp only [List.nil_append, ffill]
  | cons p rest ih =>
    rw [List.cons_append]
    simp only [ffill, ih]
    by_cases hx : x.1 ≤ t
    · rw [if_pos hx, if_pos hx]
    · rw [if_neg hx, if_neg hx]

lemma ffill_affine {t0 step : Nat} (hstep : 0 < step) (p : Nat → Rat) :
    ∀ n k, ffill ((List.range (n + 1)).map fun j => (t0 + step * j, p j))
      (t0 + step * k) = some (p (min k n)) := by
  intro n
  induction n with
  | zero =>
    intro k
    have h1 : List.range 1 = [0] := rfl
    rw [h1]
    simp only [List.map_cons, List.map_nil, ffill]
    rw [if_pos (by simp)]
    simp
  | succ n ih =>
    intro k
    rw [List.range_succ, List.map_append, List.map_cons, List.map_nil,
      ffill_append]
    rcases le_or_lt (n + 1) k with hk | hk
    · rw [if_pos (Nat.add_le_add_left (Nat.mul_le_mul_left _ hk) t0)]
      have h2 : min k (n + 1) = n + 1 := by omega
      rw [h2]
    · have hck : ¬ t0 + step * (n + 1) ≤ t0 + step * k := by
        intro hc
        have h1 : step * (n + 1) ≤ step * k := Nat.le_of_add_le_add_left hc
        have h2 : n + 1 ≤ k := Nat.le_of_mul_le_mul_left h1 hstep
        omega
      rw [if_neg hck, ih k]
      have h3 : min k n = min k (n + 1) := by omega
      rw [h3]

/-! ### Lemmas about the sorted subset -/

lemma mem_subsetOf {data : List Row} {day : Nat} {area : String} {r : Row} :
    r ∈ subsetOf data day area ↔ r ∈ data.filter (rowMatch area day) := by
  unfold subsetOf sort_values
  exact List.mem_insertionSort _

lemma strictlyAscending_iff_chain {l : List Nat} :
    strictlyAscending l = true ↔ List.Chain' (· < ·) l := by
  induction l with
  | nil => simp [strictlyAscending]
  | cons a rest ih =>
    cases rest with
    | nil => simp [strictlyAscending]
    | cons b rest' =>
      rw [strictlyAscending, Bool.and_eq_true, decide_eq_true_iff,
        List.chain'_cons, ih]

lemma pairwise_of_ascending {l : List Nat} (h : strictlyAscending l = true) :
    l.Pairwise (· < ·) := by
  rw [strictlyAscending_iff_chain, List.chain'_iff_pairwise] at h
  exact h

lemma pairwise_subset_of_ascending {subset : List Row}
    (h : strictlyAscending (subset.map Row.dateTime) = true) :
    subset.Pairwise fun a b => a.dateTime < b.dateTime :=
  List.pairwise_map.mp (pairwise_of_ascending h)

/-- Destructor for a successful run of the resampling: the bounds, the
sortedness guard, and the shape of the series. -/
lemma resampleSorted_eq_some {subset : List Row} {s : List (Nat × Option Rat)}
    (h : resampleSorted subset = some s) :
    ∃ tmin tmax, (subset.map Row.dateTime).min? = some tmin ∧
      (subset.map Row.dateTime).max? = some tmax ∧
      strictlyAscending (subset.map Row.dateTime) = true ∧
      s = (date_range tmin (tmax + 59) 15).map
        fun t => (t, ffill (subset.map fun r => (r.dateTime, r.price)) t) := by
  simp only [resampleSorted] at h
  split at h
  · rename_i tmin tmax hmin hmax
    split at h
    · rename_i hc
      exact ⟨tmin, tmax, hmin, hmax, hc, (Option.some_inj.mp h).symm⟩
    · exact absurd h (by simp)
  · exact absurd h (by simp)

/-- A dataset whose only row is on day 0, used to query a day with no data. -/
def dataDay0 : List Row := [⟨0, "NO1", 10⟩]

/-! ### Claim theorems -/

/-- C1, counterexample: a selection with one matching observation (at 01:00)
produces a 4-slot series, not 96 slots. -/
theorem C1_counterexample :
    (dataOneAt60.filter (rowMatch "NO1" 0)).length = 1 ∧
    (plot_price dataOneAt60 0 "NO1").map List.length = some 4 := ⟨rfl, rfl⟩

/-- C1 (amended): the output has exactly 96 slots when the matching
observations span the full day at hourly resolution — minimum timestamp at
00:00 and maximum at 23:00 of the selected day.  In general the slot count is
`(tmax + 59 - tmin) / 15 + 1`, not always 96. -/
theorem C1_length_96_for_full_hourly_day (data : List Row) (day : Nat)
    (area : String) (s : List (Nat × Option Rat))
    (h : plot_price data day area = some s)
    (hmin : (tsOf data day area).min? = some (1440 * day))
    (hmax : (tsOf data day area).max? = some (1440 * day + 1380)) :
    s.length = 96 := by
  obtain ⟨tmin, tmax, hmin', hmax', hasc, rfl⟩ := resampleSorted_eq_some h
  rw [tsOf] at hmin hmax
  obtain rfl : tmin = 1440 * day := Option.some_inj.mp (hmin'.symm.trans hmin)
  obtain rfl : tmax = 1440 * day + 1380 :=
    Option.some_inj.mp (hmax'.symm.trans hmax)
  rw [List.length_map, date_range_length (by omega)]
  omega

/-- C1, witness: 24 hourly observations covering day 0 resample to 96
slots. -/
theorem C1_witness : (plot_price dataHourly 0 "NO1").map List.length = some 96 := by
  have h96 := C1_length_96_for_full_hourly_day dataHourly 0 "NO1"
    ((plot_price dataHourly 0 "NO1").getD []) rfl rfl rfl
  rw [show plot_price dataHourly 0 "NO1" =
    some ((plot_price dataHourly 0 "NO1").getD []) from rfl, Option.map_some', h96]

/-- C2, counterexample: for a single observation at 02:00, the grid starts at
02:00 and ends at 02:45 — it is not the 00:00–23:45 day grid the claim
describes. -/
theorem C2_counterexample :
    plot_price dataOneAt120 0 "NO2" =
      some [(120, some 7), (135, some 7), (150, some 7), (165, some 7)] ∧
    [120, 135, 150, 165] ≠ date_range (1440 * 0) (1440 * 0 + 1425) 15 :=
  ⟨rfl, by decide⟩

/-- C2 (amended): the target grid consists of consecutive 15-minute slots
starting at the minimum observed timestamp (not at the day boundary) and
running to the last slot at or before the maximum observed timestamp plus 59
minutes. -/
theorem C2_grid_from_min_timestamp (data : List Row) (day : Nat)
    (area : String) (s : List (Nat × Option Rat)) (tmin tmax : Nat)
    (h : plot_price data day area = some s)
    (hmin : (tsOf data day area).min? = some tmin)
    (hmax : (tsOf data day area).max? = some tmax) :
    s.length = (tmax + 59 - tmin) / 15 + 1 ∧
    ∀ i ≤ (tmax + 59 - tmin) / 15,
      (s[i]?).map Prod.fst = some (tmin + 15 * i) := by
  obtain ⟨tmin', tmax', hmin', hmax', hasc, rfl⟩ := resampleSorted_eq_some h
  rw [tsOf] at hmin hmax
  obtain rfl : tmin = tmin' := Option.some_inj.mp (hmin.symm.trans hmin')
  obtain rfl : tmax = tmax' := Option.some_inj.mp (hmax.symm.trans hmax')
  have hmm := List.min?_eq_some_iff'.mp hmin'
  have hmx := List.max?_eq_some_iff'.mp hmax'
  have hle : tmin ≤ tmax + 59 := by
    have := hmx.2 tmin hmm.1
    omega
  refine ⟨by rw [List.length_map, date_range_length hle], ?_⟩
  intro i hi
  rw [List.getElem?_map, date_range_getElem? hle hi]
  rfl

/-- C2, witness: the single-observation dataset at 01:00 gives a 4-slot grid
60, 75, 90, 105. -/
theorem C2_witness :
    ((plot_price dataOneAt60 0 "NO1").getD []).length = (60 + 59 - 60) / 15 + 1 ∧
    ∀ i ≤ (60 + 59 - 60) / 15,
      (((plot_price dataOneAt60 0 "NO1").getD [])[i]?).map Prod.fst =
        some (60 + 15 * i) :=
  C2_grid_from_min_timestamp dataOneAt60 0 "NO1" _ 60 60 rfl rfl rfl

/-- C3, counterexample: a (day, area) selection with no matching rows makes
`plot_price` raise (`pd.date_range` with `NaT` bounds, modelled by `none`)
instead of returning an empty series. -/
theorem C3_counterexample :
    dataDay0.filter (rowMatch "NO1" 5) = [] ∧
    plot_price dataDay0 5 "NO1" = none := ⟨rfl, rfl⟩

/-- C3 (amended): on an empty match the table path returns an empty table,
but the chart path raises an exception (modelled by `none`) rather than
producing an empty chart. -/
theorem C3_empty_selection (data : List Row) (day : Nat) (area : String)
    (h : data.filter (rowMatch area day) = []) :
    plot_price data day area = none ∧ update_table data day area = [] := by
  have hsub : subsetOf data day area = [] := by
    rw [subsetOf, h]
    rfl
  constructor
  · rw [plot_price, hsub]
    rfl
  · rw [update_table, hsub]
    rfl

/-- C3, witness: day 5 has no observations in `dataDay0`. -/
theorem C3_witness :
    plot_price dataDay0 5 "NO1" = none ∧ update_table dataDay0 5 "NO1" = [] :=
  C3_empty_selection dataDay0 5 "NO1" rfl

/-- C7, counterexample: for day 2023-01-15 (epoch day 19372), area NO3 and a
single matching observation at 00:00 with price 50.2, the output has 4 slots,
not 96. -/
theorem C7_counterexample :
    (plot_price dataJan15 19372 "NO3").map List.length = some 4 := rfl

/-- C7 (amended): for that selection the output consists of the 4 slots
00:00, 00:15, 00:30, 00:45, each carrying the single observed price 50.2. -/
theorem C7_four_slots_all_50_2 :
    plot_price dataJan15 19372 "NO3" =
      some [(19372 * 1440, some ((251 : Rat) / 5)),
        (19372 * 1440 + 15, some ((251 : Rat) / 5)),
        (19372 * 1440 + 30, some ((251 : Rat) / 5)),
        (19372 * 1440 + 45, some ((251 : Rat) / 5))] := rfl

/-- C8: every slot of the resampled output lies at or after the minimum
matching timestamp, so slots strictly before the first observation are
absent (and in particular nothing is back-filled into them). -/
theorem C8_no_slot_before_first_observation (data : List Row) (day : Nat)
    (area : String) (s : List (Nat × Option Rat)) (tmin : Nat)
    (h : plot_price data day area = some s)
    (hmin : (tsOf data day area).min? = some tmin) :
    ∀ tv ∈ s, tmin ≤ tv.1 := by
  obtain ⟨tmin', tmax', hmin', hmax', hasc, rfl⟩ := resampleSorted_eq_some h
  rw [tsOf] at hmin
  obtain rfl : tmin = tmin' := Option.some_inj.mp (hmin.symm.trans hmin')
  intro tv htv
  obtain ⟨t, htg, rfl⟩ := List.mem_map.mp htv
  obtain ⟨k, hk, rfl⟩ := mem_date_range htg
  simp

/-- C8, witness: the slot at 01:15 of the single-observation dataset is at or
after the 01:00 observation. -/
theorem C8_witness :
    (75, some (10 : Rat)) ∈ (plot_price dataOneAt60 0 "NO1").getD [] ∧
    (60 : Nat) ≤ 75 :=
  ⟨by decide, C8_no_slot_before_first_observation dataOneAt60 0 "NO1"
    ((plot_price dataOneAt60 0 "NO1").getD []) 60 rfl rfl (75, some 10)
    (by decide)⟩

/-- C9: neither callback mutates the loaded dataframe — the `df` component of
the state is unchanged by `plot_price` and `update_table` (both work on a
`.copy()` of the filtered rows; every in-place operation targets the local
copy). -/
theorem C9_df_unchanged (day : Nat) (area : String) (s : PState) :
    (plotCallback day area s).1.df = s.df ∧
    (tableCallback day area s).1.df = s.df :=
  ⟨rfl, rfl⟩

set_option maxRecDepth 8000 in
/-- C5, counterexample: resampling an already-96-slot, 15-minute-spaced day
returns 99 slots, not the 96-slot input unchanged. -/
theorem C5_counterexample :
    dataQuarter.length = 96 ∧
    (plot_price dataQuarter 0 "NO3").map List.length = some 99 := ⟨rfl, rfl⟩

/-- C10: the grid ends at the last 15-minute slot not after the maximum
matching timestamp plus 59 minutes — every slot is `≤ tmax + 59`, the final
slot is within 15 minutes of that bound, and the slot count is determined by
the observed span `(tmax + 59 - tmin) / 15 + 1`, not fixed at 96. -/
theorem C10_grid_ends_at_max_plus_59 (data : List Row) (day : Nat)
    (area : String) (s : List (Nat × Option Rat)) (tmin tmax : Nat)
    (h : plot_price data day area = some s)
    (hmin : (tsOf data day area).min? = some tmin)
    (hmax : (tsOf data day area).max? = some tmax) :
    s.length = (tmax + 59 - tmin) / 15 + 1 ∧
    (∀ tv ∈ s, tv.1 ≤ tmax + 59) ∧
    ∃ tv ∈ s, tmax + 59 < tv.1 + 15 := by
  obtain ⟨tmin', tmax', hmin', hmax', hasc, rfl⟩ := resampleSorted_eq_some h
  rw [tsOf] at hmin hmax
  obtain rfl : tmin = tmin' := Option.some_inj.mp (hmin.symm.trans hmin')
  obtain rfl : tmax = tmax' := Option.some_inj.mp (hmax.symm.trans hmax')
  have hmm := List.min?_eq_some_iff'.mp hmin'
  have hmx := List.max?_eq_some_iff'.mp hmax'
  have hle : tmin ≤ tmax + 59 := by
    have := hmx.2 tmin hmm.1
    omega
  refine ⟨by rw [List.length_map, date_range_length hle], ?_, ?_⟩
  · intro tv htv
    obtain ⟨t, htg, rfl⟩ := List.mem_map.mp htv
    exact mem_date_range_le hle htg
  · have hk : (tmin + 15 * ((tmax + 59 - tmin) / 15)) ∈
        date_range tmin (tmax + 59) 15 := by
      rw [date_range, if_neg (by omega)]
      exact List.mem_map.mpr ⟨(tmax + 59 - tmin) / 15,
        List.mem_range.mpr (by omega), rfl⟩
    refine ⟨(tmin + 15 * ((tmax + 59 - tmin) / 15),
      ffill ((subsetOf data day area).map fun r => (r.dateTime, r.price))
        (tmin + 15 * ((tmax + 59 - tmin) / 15))), List.mem_map.mpr ⟨_, hk, rfl⟩, by omega⟩

/-- C10, witness: for the hourly day-0 dataset (`tmin` 00:00, `tmax` 23:00)
the series has (1380+59-0)/15+1 = 96 slots, all at or before 23:59, the last
within 15 minutes of 23:59. -/
theorem C10_witness :
    ((plot_price dataHourly 0 "NO1").getD []).length = (1380 + 59 - 0) / 15 + 1 ∧
    (∀ tv ∈ (plot_price dataHourly 0 "NO1").getD [], tv.1 ≤ 1380 + 59) ∧
    ∃ tv ∈ (plot_price dataHourly 0 "NO1").getD [], 1380 + 59 < tv.1 + 15 :=
  C10_grid_ends_at_max_plus_59 dataHourly 0 "NO1" _ 0 1380 rfl rfl rfl

/-- C4: every slot of the resampled series carries the price of the latest
matching observation whose timestamp is at or before the slot's start (all
slots are at or after the first observation, since the grid starts there). -/
theorem C4_forward_fill_correct (data : List Row) (day : Nat) (area : String)
    (s : List (Nat × Option Rat)) (h : plot_price data day area = some s) :
    ∀ tv ∈ s, ∃ r ∈ data.filter (rowMatch area day),
      tv.2 = some r.price ∧ r.dateTime ≤ tv.1 ∧
      ∀ q ∈ data.filter (rowMatch area day),
        q.dateTime ≤ tv.1 → q.dateTime ≤ r.dateTime := by
  obtain ⟨tmin, tmax, hmin, hmax, hasc, rfl⟩ := resampleSorted_eq_some h
  intro tv htv
  obtain ⟨t, htg, rfl⟩ := List.mem_map.mp htv
  obtain ⟨k, hk, rfl⟩ := mem_date_range htg
  have hmm := List.min?_eq_some_iff'.mp hmin
  obtain ⟨r0, hr0m, hr0t⟩ := List.mem_map.mp hmm.1
  have hr0pair : (r0.dateTime, r0.price) ∈
      (subsetOf data day area).map fun r => (r.dateTime, r.price) :=
    List.mem_map.mpr ⟨r0, hr0m, rfl⟩
  have hsome : (ffill ((subsetOf data day area).map
      fun r => (r.dateTime, r.price)) (tmin + 15 * k)).isSome :=
    ffill_isSome ⟨(r0.dateTime, r0.price), hr0pair, by simp [hr0t]⟩
  obtain ⟨q, hq⟩ := Option.isSome_iff_exists.mp hsome
  have hsort : ((subsetOf data day area).map
      fun r => (r.dateTime, r.price)).Pairwise fun a b => a.1 < b.1 :=
    List.pairwise_map.mpr (pairwise_subset_of_ascending hasc)
  obtain ⟨p, hpm, hpq, hpt, hpmax⟩ := ffill_spec hsort hq
  obtain ⟨r, hrm, hrp⟩ := List.mem_map.mp hpm
  refine ⟨r, mem_subsetOf.mp hrm, ?_, ?_, ?_⟩
  · rw [hq, ← hpq, ← hrp]
  · rw [show r.dateTime = ((r.dateTime, r.price) : Nat × Rat).1 from rfl, hrp]
    exact hpt
  · intro q' hq'm hq't
    have hq'pair : (q'.dateTime, q'.price) ∈
        (subsetOf data day area).map fun r => (r.dateTime, r.price) :=
      List.mem_map.mpr ⟨q', mem_subsetOf.mpr hq'm, rfl⟩
    have := hpmax (q'.dateTime, q'.price) hq'pair hq't
    rw [show r.dateTime = ((r.dateTime, r.price) : Nat × Rat).1 from rfl, hrp]
    exact this

/-- C4, witness: in the single-observation dataset, the slot at 01:30
carries the price of the (unique, hence latest) observation at 01:00. -/
theorem C4_witness :
    ∃ r ∈ dataOneAt60.filter (rowMatch "NO1" 0),
      ((90, some (10 : Rat)) : Nat × Option Rat).2 = some r.price ∧
      r.dateTime ≤ 90 ∧
      ∀ q ∈ dataOneAt60.filter (rowMatch "NO1" 0),
        q.dateTime ≤ 90 → q.dateTime ≤ r.dateTime :=
  C4_forward_fill_correct dataOneAt60 0 "NO1"
    ((plot_price dataOneAt60 0 "NO1").getD []) rfl (90, some 10) (by decide)

/-! ### The idempotence claim: an already-resampled day -/

/-- The input family for the idempotence claim: a series that is already 96
slots spaced 15 minutes covering one calendar day `d`, with prices `p`. -/
def quarterDay (d : Nat) (a : String) (p : Nat → Rat) : List Row :=
  (List.range 96).map fun k => ⟨1440 * d + 15 * k, a, p k⟩

lemma quarterDay_filter (d : Nat) (a : String) (p : Nat → Rat) :
    (quarterDay d a p).filter (rowMatch a d) = quarterDay d a p := by
  rw [List.filter_eq_self]
  intro r hr
  rw [quarterDay] at hr
  obtain ⟨k, hk, rfl⟩ := List.mem_map.mp hr
  rw [List.mem_range] at hk
  have hday : (1440 * d + 15 * k) / 1440 = d := by
    rw [Nat.mul_add_div (by norm_num)]
    have h15 : 15 * k / 1440 = 0 := Nat.div_eq_of_lt (by omega)
    omega
  simp [rowMatch, Row.day, hday]

lemma quarterDay_subsetOf (d : Nat) (a : String) (p : Nat → Rat) :
    subsetOf (quarterDay d a p) d a = quarterDay d a p := by
  rw [subsetOf, quarterDay_filter, sort_values]
  apply List.Sorted.insertionSort_eq
  rw [quarterDay]
  exact (List.pairwise_lt_range 96).map _ fun i j hij => by
    show 1440 * d + 15 * i ≤ 1440 * d + 15 * j
    omega

lemma quarterDay_ts (d : Nat) (a : String) (p : Nat → Rat) :
    (quarterDay d a p).map Row.dateTime =
      (List.range 96).map fun k => 1440 * d + 15 * k := by
  rw [quarterDay, List.map_map]
  rfl

lemma quarterDay_min (d : Nat) (a : String) (p : Nat → Rat) :
    ((quarterDay d a p).map Row.dateTime).min? = some (1440 * d) := by
  rw [quarterDay_ts]
  apply List.min?_eq_some_iff'.mpr
  constructor
  · exact List.mem_map.mpr ⟨0, List.mem_range.mpr (by norm_num), by simp⟩
  · intro b hb
    obtain ⟨k, hk, rfl⟩ := List.mem_map.mp hb
    omega

lemma quarterDay_max (d : Nat) (a : String) (p : Nat → Rat) :
    ((quarterDay d a p).map Row.dateTime).max? = some (1440 * d + 1425) := by
  rw [quarterDay_ts]
  apply List.max?_eq_some_iff'.mpr
  constructor
  · exact List.mem_map.mpr ⟨95, List.mem_range.mpr (by norm_num), by norm_num⟩
  · intro b hb
    obtain ⟨k, hk, rfl⟩ := List.mem_map.mp hb
    rw [List.mem_range] at hk
    omega

lemma quarterDay_ascending (d : Nat) (a : String) (p : Nat → Rat) :
    strictlyAscending ((quarterDay d a p).map Row.dateTime) = true := by
  rw [quarterDay_ts, strictlyAscending_iff_chain, List.chain'_iff_pairwise]
  exact (List.pairwise_lt_range 96).map _ fun i j hij => by
    show 1440 * d + 15 * i < 1440 * d + 15 * j
    omega

lemma quarterDay_pairs (d : Nat) (a : String) (p : Nat → Rat) :
    (quarterDay d a p).map (fun r => (r.dateTime, r.price)) =
      (List.range 96).map fun j => (1440 * d + 15 * j, p j) := by
  rw [quarterDay, List.map_map]
  rfl

lemma ffill_quarter (d : Nat) (p : Nat → Rat) (k : Nat) :
    ffill ((List.range 96).map fun j => (1440 * d + 15 * j, p j))
      (1440 * d + 15 * k) = some (p (min k 95)) := by
  have h := @ffill_affine (1440 * d) 15 (by norm_num) p 95 k
  norm_num at h
  exact h

/-- C5 (amended): resampling an already-96-slot, 15-minute-spaced series
covering one calendar day does NOT return it unchanged — it returns the 96
input slots with their prices unchanged followed by 3 extra slots (00:00,
00:15 and 00:30 of the next day), each carrying the final price. -/
theorem C5_resample_appends_three_slots (d : Nat) (a : String) (p : Nat → Rat) :
    plot_price (quarterDay d a p) d a =
      some (((List.range 96).map fun k => (1440 * d + 15 * k, some (p k))) ++
        [(1440 * d + 1440, some (p 95)), (1440 * d + 1455, some (p 95)),
          (1440 * d + 1470, some (p 95))]) := by
  rw [plot_price, quarterDay_subsetOf]
  simp only [resampleSorted, quarterDay_min, quarterDay_max]
  rw [if_pos (quarterDay_ascending d a p)]
  congr 1
  have hgrid : date_range (1440 * d) (1440 * d + 1425 + 59) 15 =
      (List.range 99).map fun k => 1440 * d + 15 * k := by
    rw [date_range, if_neg (by omega)]
    have h99 : (1440 * d + 1425 + 59 - 1440 * d) / 15 + 1 = 99 := by omega
    rw [h99]
  rw [hgrid, List.map_map]
  simp only [quarterDay_pairs, Function.comp_def]
  have hpoint : ∀ k ∈ List.range 99,
      ((1440 * d + 15 * k : Nat),
        ffill ((List.range 96).map fun j => (1440 * d + 15 * j, p j))
          (1440 * d + 15 * k)) =
      ((1440 * d + 15 * k : Nat), some (p (min k 95))) := by
    intro k hk
    rw [ffill_quarter]
  rw [List.map_congr_left hpoint]
  have hsplit : List.range 99 = List.range 96 ++ (List.range 3).map (96 + ·) := by
    have h3 : (99 : Nat) = 96 + 3 := by norm_num
    rw [h3, List.range_add]
  rw [hsplit, List.map_append]
  have hfirst : (List.range 96).map
        (fun k => ((1440 * d + 15 * k : Nat), some (p (min k 95)))) =
      (List.range 96).map fun k => ((1440 * d + 15 * k : Nat), some (p k)) := by
    apply List.map_congr_left
    intro k hk
    rw [List.mem_range] at hk
    have hmin : min k 95 = k := by omega
    rw [hmin]
  rw [hfirst]
  rfl

/-! ### The MTU label construction -/

lemma zip_mtu_label (times : List String) (prices : List Rat)
    (hlen : times.length = prices.length) (i : Nat) :
    ((((times.zip (times.drop 1 ++ ["00:00"])).map
        fun p => p.1 ++ " - " ++ p.2).zip prices)[i]?).map Prod.fst =
      match times[i]?, times[i + 1]? with
      | some a, some b => some (a ++ " - " ++ b)
      | some a, none => some (a ++ " - " ++ "00:00")
      | none, _ => none := by
  rw [List.zip_eq_zipWith, List.getElem?_zipWith, List.getElem?_map,
    List.zip_eq_zipWith, List.getElem?_zipWith]
  by_cases h1 : i < times.length
  · have hpi : i < prices.length := hlen ▸ h1
    rw [List.getElem?_eq_getElem h1, List.getElem?_eq_getElem hpi]
    by_cases h2 : i + 1 < times.length
    · have hd : i < (times.drop 1).length := by
        rw [List.length_drop]
        omega
      have h1i : 1 + i < times.length := by omega
      rw [List.getElem?_append_left hd, List.getElem?_drop,
        List.getElem?_eq_getElem h1i, List.getElem?_eq_getElem h2]
      have hidx : times[1 + i] = times[i + 1] := by
        congr 1
        omega
      rw [hidx]
      rfl
    · have hn : times.length ≤ i + 1 := by omega
      rw [List.getElem?_eq_none hn]
      have hd : (times.drop 1).length ≤ i := by
        rw [List.length_drop]
        omega
      rw [List.getElem?_append_right hd]
      have hz : i - (times.drop 1).length = 0 := by
        rw [List.length_drop]
        omega
      rw [hz]
      rfl
  · rw [List.getElem?_eq_none (show times.length ≤ i by omega)]
    rfl

/-- C6: in the table, the MTU label of row `i` is the row's time, a `" - "`
separator, and the next row's time; the last row's label pairs its time with
`"00:00"` (rows beyond the table have no label). -/
theorem C6_table_interval_labels (data : List Row) (day : Nat) (area : String)
    (i : Nat) :
    ((update_table data day area)[i]?).map Prod.fst =
      match (tableTimes data day area)[i]?, (tableTimes data day area)[i + 1]? with
      | some a, some b => some (a ++ " - " ++ b)
      | some a, none => some (a ++ " - " ++ "00:00")
      | none, _ => none := by
  have h := zip_mtu_label ((subsetOf data day area).map fun r => strftimeHM r.dateTime)
    ((subsetOf data day area).map Row.price) (by simp) i
  exact h
